import Mathlib

/-!
Verification development for the tmux-backed session manager of this
repository.  The TypeScript sources are embedded shallowly: JavaScript
strings are modelled as `List Char` (`Str`), the JS string methods used by
the code (`startsWith`, `endsWith`, `slice`, `trim`, `split`, `includes`,
`join`, `replace`) are given faithful executable models prefixed with
`js_`, and the two variants of the manager module are embedded in the
namespaces `P0` (the file `src/unnamed/part_000`) and `SM`
(`src/src/sessionManager.ts`).  Host interactions (execSync / spawnSync /
awaited setTimeout) are reified as `HostEvent` traces so that argument
vectors, shell-string interpolation and the text/Enter delivery ordering
can be stated and proved.  Node's `path.resolve` is modelled as the
identity on already-canonical absolute paths; the filesystem
(`existsSync`) and the set of running tmux sessions are passed in as
explicit parameters, since tmux — not the process — is the source of
truth for session existence.
-/

/-- JavaScript strings are modelled as their sequences of characters. -/
abbrev Str := List Char

/-- Coerce a Lean string literal into the `Str` model. -/
def jstr (s : String) : Str := s.data

/-- The single-quote character (39), kept out of string literals. -/
def squote : Char := Char.ofNat 39

/-- The backslash character (92). -/
def bslash : Char := Char.ofNat 92

/-- The newline character (10). -/
def nlChar : Char := Char.ofNat 10

/-- The vertical-bar field separator (124) used by the tmux list format. -/
def pipeChar : Char := Char.ofNat 124

/-- JS `s.startsWith(p)` (arguments: the string, then the candidate). -/
def js_startsWith : Str → Str → Bool
  | _, [] => true
  | [], _ :: _ => false
  | b :: ss, a :: ps => decide (b = a) && js_startsWith ss ps

/-- JS `s.endsWith(p)`. -/
def js_endsWith (s p : Str) : Bool := js_startsWith s.reverse p.reverse

/-- JS `s.slice(-n)`: the final `n` characters (the whole string when it is
shorter than `n`). -/
def js_sliceLast (n : Nat) (s : Str) : Str := s.drop (s.length - n)

/-- JS `s.trim()`: strip whitespace from both ends. -/
def js_trim (s : Str) : Str :=
  ((s.dropWhile Char.isWhitespace).reverse.dropWhile Char.isWhitespace).reverse

/-- JS `xs.includes(x)` on an array of strings. -/
def js_includes (xs : List Str) (x : Str) : Bool := xs.any (fun y => decide (y = x))

/-- Substring test: does `sub` occur contiguously inside the second string? -/
def hasSubstr (sub : Str) : Str → Bool
  | [] => decide (sub = [])
  | c :: cs => js_startsWith (c :: cs) sub || hasSubstr sub cs

/-- JS `s.split(sep)` for a one-character separator: always returns at least
one (possibly empty) chunk. -/
def splitChar (sep : Char) : Str → List Str
  | [] => [[]]
  | c :: cs =>
    if c = sep then [] :: splitChar sep cs
    else
      match splitChar sep cs with
      | [] => [[c]]
      | r :: rs => (c :: r) :: rs

/-- JS `lines.join(newline)`. -/
def joinNL (xs : List Str) : Str := List.intercalate (jstr "\n") xs

/-- JS `s.replace(pat, emptyString)`: delete the first occurrence of `pat`. -/
def deleteFirstOcc (pat : Str) : Str → Str
  | [] => []
  | c :: cs =>
    if js_startsWith (c :: cs) pat then List.drop pat.length (c :: cs)
    else c :: deleteFirstOcc pat cs

/-- JS `text.replace(quoteGlobalRegex, quoteBackslashQuoteQuote)`: the
single-quote escaping applied by `sendToSession` before interpolating the
text into the shell command. -/
def js_escapeSQuotes : Str → Str
  | [] => []
  | c :: cs =>
    (if c = squote then [squote, bslash, squote, squote] else [c]) ++ js_escapeSQuotes cs

/-- The `diffStart` loop of `getNewOutput` (identical in
`src/src/sessionManager.ts:330-337` and `src/unnamed/part_000:268-275`):
walk the new lines from the start while each is found in the previous
lines; return the index of the first line not found there. -/
def diffStartIdx (lastLines : List Str) : List Str → Nat
  | [] => 0
  | l :: ls => if js_includes lastLines l then diffStartIdx lastLines ls + 1 else 0

/-- The general (line-walk) path of `getNewOutput`, lines 324-340 of
`src/src/sessionManager.ts` (identically lines 262-278 of
`src/unnamed/part_000`). -/
def generalPathDiff (last output : Str) : Option Str :=
  let lastLines := splitChar nlChar (js_trim last)
  let newLines := splitChar nlChar (js_trim output)
  let newContent := js_trim (joinNL (newLines.drop (diffStartIdx lastLines newLines)))
  if newContent = [] then none else some newContent

/-- The output differ at the heart of `getNewOutput`
(`src/src/sessionManager.ts:307-341`, `src/unnamed/part_000:245-279`):
given the cached previous capture `last` and the fresh capture `output`
it computes the "new since last check" text.  The surrounding capture
call and cache update (lines 308-311) are modelled by passing `last` and
`output` explicitly. -/
def getNewOutputDiff (last output : Str) : Option Str :=
  if last = [] ∨ output = last then
    none
  else if output.length > last.length ∧ js_endsWith output (js_sliceLast 500 last) = true then
    some (output.take (output.length - last.length))
  else
    generalPathDiff last output

/-- Node `path.resolve`, modelled as the identity: all paths supplied to the
theorems are already canonical absolute paths (no `.`/`..` segments, no
trailing separator). -/
def resolvePath (p : Str) : Str := p

/-- `isPathAllowed` (`src/src/sessionManager.ts:65-70` and, verbatim,
`src/unnamed/part_000:13-18`): with an empty allowlist everything is
allowed; otherwise the resolved candidate must equal an allowed root or
start with the root followed by the path separator. -/
def isPathAllowed (allowedPaths : List Str) (targetPath : Str) : Bool :=
  if allowedPaths.isEmpty then true
  else
    allowedPaths.any (fun allowed =>
      js_startsWith (resolvePath targetPath) (allowed ++ jstr "/")
        || decide (resolvePath targetPath = allowed))

/-- `setAllowedPaths` (`src/unnamed/part_000:9-11`): store each configured
path with the home-directory marker expanded and the result resolved. -/
def setAllowedPaths (homedir : Str) (paths : List Str) : List Str :=
  paths.map (fun p =>
    resolvePath (if js_startsWith p (jstr "~") then homedir ++ p.drop 1 else p))

/-- The `~`-expansion-then-resolve applied to the candidate directory in
`createSession` (`src/unnamed/part_000:77-80`). -/
def resolveDir (homedir dir : Str) : Str :=
  resolvePath (if js_startsWith dir (jstr "~") then homedir ++ dir.drop 1 else dir)

/-- One interaction with the host system: an `execSync` of a shell command
string, a `spawnSync` with a discrete argument vector, or an awaited
`setTimeout` delay. -/
inductive HostEvent where
  | exec (cmd : Str)
  | spawn (prog : Str) (args : List Str)
  | waitMs (ms : Nat)
deriving DecidableEq

/-- Results of fallible operations are compared in concrete checks. -/
instance {ε α : Type} [DecidableEq ε] [DecidableEq α] : DecidableEq (Except ε α) :=
  fun a b =>
    match a, b with
    | Except.error e1, Except.error e2 =>
      if h : e1 = e2 then isTrue (by rw [h]) else isFalse (fun he => h (Except.error.inj he))
    | Except.ok v1, Except.ok v2 =>
      if h : v1 = v2 then isTrue (by rw [h]) else isFalse (fun he => h (Except.ok.inj he))
    | Except.error _, Except.ok _ => isFalse (fun he => Except.noConfusion he)
    | Except.ok _, Except.error _ => isFalse (fun he => Except.noConfusion he)

/-- Is this host interaction an argument-vector (`spawnSync`) invocation, as
opposed to a shell command string handed to `execSync`? -/
def isArgVector : HostEvent → Bool
  | HostEvent.spawn _ _ => true
  | _ => false

/-- Does the trace contain an awaited delay step? -/
def hasWaitStep (evs : List HostEvent) : Bool :=
  evs.any (fun e => match e with | HostEvent.waitMs _ => true | _ => false)

/-- Does the trace have the shape: inject literal text, wait between `lo`
and `hi` milliseconds, and only then inject the Enter keystroke?  The
first command must carry the literal-text flag and the last must end in
the Enter key name. -/
def twoStepTextThenEnter (lo hi : Nat) : List HostEvent → Bool
  | [HostEvent.exec c1, HostEvent.waitMs d, HostEvent.exec c2] =>
    hasSubstr (jstr " -l ") c1 && js_endsWith c2 (jstr " Enter")
      && decide (lo ≤ d) && decide (d ≤ hi)
  | _ => false

/-- The `tmux send-keys ... -l '<escaped>'` command string built by
`sendToSession` (`src/src/sessionManager.ts:265`,
`src/unnamed/part_000:208`). -/
def sendKeysTextCmd (name esc : Str) : Str :=
  jstr "tmux send-keys -t \"" ++ name ++ jstr "\" -l " ++ [squote] ++ esc ++ [squote]

/-- The `tmux send-keys ... Enter` command string
(`src/src/sessionManager.ts:271`, `src/unnamed/part_000:209`). -/
def sendKeysEnterCmd (name : Str) : Str :=
  jstr "tmux send-keys -t \"" ++ name ++ jstr "\" Enter"

/-- The `tmux has-session` probe command string
(`src/src/sessionManager.ts:197`, `src/unnamed/part_000:135`). -/
def hasSessionCmd (name : Str) : Str :=
  jstr "tmux has-session -t \"" ++ name ++ jstr "\" 2>/dev/null"

/-- The argument vector of the `spawnSync` call creating a session
(`src/src/sessionManager.ts:165-171`, `src/unnamed/part_000:100-106`). -/
def newSessionArgs (name dir : Str) : List Str :=
  [jstr "new-session", jstr "-d", jstr "-x", jstr "200", jstr "-y", jstr "50",
   jstr "-s", name, jstr "-c", dir, jstr "claude", jstr "--dangerously-skip-permissions"]

/-- `Map.set` on a map modelled as a function. -/
def mset (k v : Str) (m : Str → Option Str) : Str → Option Str :=
  fun x => if x = k then some v else m x

/-- `Map.delete` on a map modelled as a function. -/
def mdel (k : Str) (m : Str → Option Str) : Str → Option Str :=
  fun x => if x = k then none else m x

namespace P0

/-- `SESSION_PREFIX` of `src/unnamed/part_000:20`. -/
def sessionTag : Str := jstr "claude-"

/-- `getTmuxName` (`src/unnamed/part_000:62-64`). -/
def tmuxName (sessionId : Str) : Str := sessionTag ++ sessionId

/-- The `SessionInfo` record of `src/unnamed/part_000:30-37`.  `createdAt`
keeps the raw seconds field of the host listing; the wall-clock
`new Date()` at creation time is outside the embedding and modelled as
`none`. -/
structure SessionInfo where
  id : Str
  tmuxName : Str
  directory : Str
  channelId : Option Str
  attachCommand : Str
  createdAt : Option Str
deriving DecidableEq

/-- The mutable state of the `SessionManager` class of
`src/unnamed/part_000` (its three `Map`s) together with the set of
sessions the tmux host is currently running (`running`), which the class
itself never caches. -/
structure MgrState where
  channelMap : Str → Option Str
  reverseMap : Str → Option Str
  lastOutput : Str → Option Str
  running : Str → Bool

/-- A fresh manager facing a host with no sessions. -/
def emptyState : MgrState :=
  { channelMap := fun _ => none, reverseMap := fun _ => none,
    lastOutput := fun _ => none, running := fun _ => false }

/-- `sessionExists` (`src/unnamed/part_000:132-140`): a `tmux has-session`
probe, i.e. a lookup in the host's running-session set. -/
def sessionExists (st : MgrState) (sessionId : Str) : Bool :=
  st.running (tmuxName sessionId)

/-- `linkChannel` (`src/unnamed/part_000:145-148`). -/
def linkChannel (st : MgrState) (sessionId channelId : Str) : MgrState :=
  { st with channelMap := mset sessionId channelId st.channelMap,
            reverseMap := mset channelId sessionId st.reverseMap }

/-- `getSessionByChannel` (`src/unnamed/part_000:153-155`). -/
def getSessionByChannel (st : MgrState) (channelId : Str) : Option Str :=
  st.reverseMap channelId

/-- `getChannelBySession` (`src/unnamed/part_000:160-162`). -/
def getChannelBySession (st : MgrState) (sessionId : Str) : Option Str :=
  st.channelMap sessionId

/-- `unlinkChannel` (`src/unnamed/part_000:362-368`).  The JS truthiness
guard `if (sessionId)` skips both deletes not only when the channel is
unlinked but also when the stored session id is the empty string. -/
def unlinkChannel (st : MgrState) (channelId : Str) : MgrState :=
  match st.reverseMap channelId with
  | some sessionId =>
    if sessionId = [] then st
    else
      { st with channelMap := mdel sessionId st.channelMap,
                reverseMap := mdel channelId st.reverseMap }
  | none => st

/-- `createSession` (`src/unnamed/part_000:69-127`).  `fsDirExists` stands
for `existsSync`, `spawnOk`/`spawnErr` for the status and stderr of the
`spawnSync` call; the second component of the result lists the host
interactions performed (the `has-session` probe and, at most once, the
`spawnSync`). -/
def createSession (homedir : Str) (allowedPaths : List Str) (fsDirExists : Str → Bool)
    (spawnOk : Bool) (spawnErr : Str) (st : MgrState)
    (sessionId directory channelId : Str) :
    Except Str (MgrState × SessionInfo) × List HostEvent :=
  let tmn := tmuxName sessionId
  let resolvedDir := resolveDir homedir directory
  if isPathAllowed allowedPaths resolvedDir = false then
    (Except.error (jstr "Directory not in allowed paths: " ++ resolvedDir), [])
  else if fsDirExists resolvedDir = false then
    (Except.error (jstr "Directory does not exist: " ++ resolvedDir), [])
  else if sessionExists st sessionId = true then
    (Except.error (jstr "Session \"" ++ sessionId ++ jstr "\" already exists"),
     [HostEvent.exec (hasSessionCmd tmn)])
  else if spawnOk = false then
    (Except.error (jstr "Failed to create session: " ++ spawnErr),
     [HostEvent.exec (hasSessionCmd tmn),
      HostEvent.spawn (jstr "tmux") (newSessionArgs tmn resolvedDir)])
  else
    (Except.ok
      ({ channelMap := mset sessionId channelId st.channelMap,
         reverseMap := mset channelId sessionId st.reverseMap,
         lastOutput := st.lastOutput,
         running := fun n => if n = tmn then true else st.running n },
       { id := sessionId, tmuxName := tmn, directory := resolvedDir,
         channelId := some channelId,
         attachCommand := jstr "tmux attach -t " ++ tmn, createdAt := none }),
     [HostEvent.exec (hasSessionCmd tmn),
      HostEvent.spawn (jstr "tmux") (newSessionArgs tmn resolvedDir)])

/-- `sendToSession` (`src/unnamed/part_000:198-215`): existence re-check,
then two `execSync` shell strings — the escaped literal text and the
Enter keystroke — with no intervening delay.  The success path is
modelled; a host failure only truncates the trace. -/
def sendToSession (st : MgrState) (sessionId text : Str) : Except Str (List HostEvent) :=
  if sessionExists st sessionId = false then
    Except.error (jstr "Session \"" ++ sessionId ++ jstr "\" does not exist")
  else
    Except.ok [HostEvent.exec (sendKeysTextCmd (tmuxName sessionId) (js_escapeSQuotes text)),
               HostEvent.exec (sendKeysEnterCmd (tmuxName sessionId))]

/-- `killSession` (`src/unnamed/part_000:302-324`): existence re-check, the
host kill (whose success is `killOk`), then cleanup of the channel
mappings and the last-output cache.  The JS truthiness guard
`if (channelId)` skips the reverse-map delete not only when the session
is unlinked but also when the linked channel id is the empty string; the
forward entry and the last-output entry are deleted unconditionally. -/
def killSession (st : MgrState) (sessionId : Str) (killOk : Bool) : Except Str MgrState :=
  if sessionExists st sessionId = false then
    Except.error (jstr "Session \"" ++ sessionId ++ jstr "\" does not exist")
  else if killOk = false then
    Except.error (jstr "Failed to kill session: tmux command failed")
  else
    Except.ok
      { channelMap := mdel sessionId st.channelMap,
        reverseMap := (match st.channelMap sessionId with
          | some channelId =>
            if channelId = [] then st.reverseMap else mdel channelId st.reverseMap
          | none => st.reverseMap),
        lastOutput := mdel sessionId st.lastOutput,
        running := fun n => if n = tmuxName sessionId then false else st.running n }

/-- `getSession` (`src/unnamed/part_000:329-357`): existence check, then a
filtered single-session host listing (`hostOut`; `none` models the host
call throwing) parsed into a `SessionInfo`. -/
def getSession (st : MgrState) (hostOut : Option Str) (sessionId : Str) : Option SessionInfo :=
  if sessionExists st sessionId = false then none
  else
    match hostOut with
    | none => none
    | some out =>
      let line := js_trim out
      if line = [] then none
      else
        let parts := splitChar pipeChar line
        let name := parts.headD []
        some { id := sessionId, tmuxName := name,
               directory := (match parts.get? 2 with
                 | some p => if p = [] then jstr "unknown" else p
                 | none => jstr "unknown"),
               channelId := st.channelMap sessionId,
               attachCommand := jstr "tmux attach -t " ++ name,
               createdAt := (match parts.get? 1 with
                 | some c => if c = [] then none else some c
                 | none => none) }

end P0

/-- The bidirectional-registry invariant claimed for the channel maps: the
forward map (session to channel) and the reverse map (channel to session)
are exact inverses. -/
def RegInverse (st : P0.MgrState) : Prop :=
  ∀ s c : Str, st.channelMap s = some c ↔ st.reverseMap c = some s

/-- No session is linked to the empty (JS-falsy) channel id.  The cleanup
guard of `killSession` silently skips such a link's reverse entry, so the
inverse-registry discipline is only maintainable away from it. -/
def NoEmptyChannel (st : P0.MgrState) : Prop :=
  ∀ s : Str, ¬(st.channelMap s = some [])

/-- One registry-touching operation of the manager, for stating how the
channel maps evolve over arbitrary operation sequences. -/
inductive RegOp where
  | link (s c : Str)
  | unlink (c : Str)
  | kill (s : Str) (killOk : Bool)
  | create (homedir : Str) (allowedPaths : List Str) (fsDirExists : Str → Bool)
      (spawnOk : Bool) (spawnErr : Str) (sid dir ch : Str)

/-- Apply one operation to the manager state (failed kill/create calls leave
the state unchanged, as in the source, where the cleanup and the map
updates are only reached on success). -/
def applyRegOp (st : P0.MgrState) : RegOp → P0.MgrState
  | RegOp.link s c => P0.linkChannel st s c
  | RegOp.unlink c => P0.unlinkChannel st c
  | RegOp.kill s killOk =>
    (match P0.killSession st s killOk with
     | Except.ok st2 => st2
     | Except.error _ => st)
  | RegOp.create homedir allowedPaths fsDirExists spawnOk spawnErr sid dir ch =>
    (match (P0.createSession homedir allowedPaths fsDirExists spawnOk spawnErr st sid dir ch).1 with
     | Except.ok (st2, _) => st2
     | Except.error _ => st)

/-- Run a sequence of operations. -/
def runRegOps (st : P0.MgrState) (ops : List RegOp) : P0.MgrState :=
  ops.foldl applyRegOp st

/-- Along the given operation sequence, every link (from `linkChannel` or a
successful `createSession`) targets a session and a channel that are both
currently unlinked, and binds a nonempty channel id. -/
def freshLinks : P0.MgrState → List RegOp → Bool
  | _, [] => true
  | st, op :: ops =>
    (match op with
     | RegOp.link s c =>
       (st.channelMap s).isNone && (st.reverseMap c).isNone && decide (c ≠ [])
     | RegOp.create _ _ _ _ _ sid _ ch =>
       (st.channelMap sid).isNone && (st.reverseMap ch).isNone && decide (ch ≠ [])
     | _ => true) && freshLinks (applyRegOp st op) ops

namespace SM

/-- `SESSION_PREFIX` of `src/src/sessionManager.ts:13`. -/
def sessionTag : Str := jstr "disco_"

/-- The underscore separator (95) of composite session ids. -/
def uscoreChar : Char := Char.ofNat 95

/-- `getTmuxName` (`src/src/sessionManager.ts:117-119`). -/
def tmuxName (sessionId : Str) : Str := sessionTag ++ sessionId

/-- `makeSessionId` (`src/src/sessionManager.ts:85-87`). -/
def makeSessionId (guildId channelId : Str) : Str :=
  guildId ++ [uscoreChar] ++ channelId

/-- `parseSessionId` (`src/src/sessionManager.ts:92-96`). -/
def parseSessionId (sessionId : Str) : Option (Str × Str) :=
  match splitChar uscoreChar sessionId with
  | [g, c] => some (g, c)
  | _ => none

/-- `getSessionIdFromTmuxName` (`src/src/sessionManager.ts:124-127`). -/
def getSessionIdFromTmuxName (name : Str) : Option Str :=
  if js_startsWith name sessionTag then some (name.drop sessionTag.length) else none

/-- The `SessionInfo` record of `src/src/sessionManager.ts:72-80`; as in
`P0.SessionInfo`, `createdAt` keeps the raw seconds field of the host
listing. -/
structure SessionInfo where
  id : Str
  tmuxName : Str
  directory : Str
  guildId : Str
  channelId : Str
  attachCommand : Str
  createdAt : Option Str
deriving DecidableEq

/-- The per-line body of the `listSessions` map
(`src/src/sessionManager.ts:233-246`), including the JS truthiness
fallbacks: a null or empty recovered id falls back to the full name, a
missing path falls back to the unknown marker, an unparsable id yields
empty guild/channel fields. -/
def parseLine (line : Str) : SessionInfo :=
  let parts := splitChar pipeChar line
  let name := parts.headD []
  let sessionId := getSessionIdFromTmuxName name
  let parsed := (match sessionId with
    | some s => if s = [] then none else parseSessionId s
    | none => none)
  { id := (match sessionId with
      | some s => if s = [] then name else s
      | none => name),
    tmuxName := name,
    directory := (match parts.get? 2 with
      | some p => if p = [] then jstr "unknown" else p
      | none => jstr "unknown"),
    guildId := (match parsed with | some gc => gc.1 | none => []),
    channelId := (match parsed with | some gc => gc.2 | none => []),
    createdAt := (match parts.get? 1 with
      | some c => if c = [] then none else some c
      | none => none),
    attachCommand := jstr "tmux attach -t " ++ name }

/-- `listSessions` (`src/src/sessionManager.ts:222-250`): `hostOut` is the
stdout of the host listing, `none` modelling the host call throwing (the
catch branch returns the empty list); lines are trimmed, split, filtered
to the namespace, and parsed. -/
def listSessions (hostOut : Option Str) : List SessionInfo :=
  match hostOut with
  | none => []
  | some out =>
    ((splitChar nlChar (js_trim out)).filter
      (fun line => js_startsWith line sessionTag)).map parseLine

/-- `sendToSession` (`src/src/sessionManager.ts:255-277`): existence
re-check, then the escaped-literal-text `execSync`, an awaited 1500 ms
`setTimeout`, and only then the Enter-keystroke `execSync`.  `running` is
the host's running-session set. -/
def sendToSession (running : Str → Bool) (sessionId text : Str) :
    Except Str (List HostEvent) :=
  if running (tmuxName sessionId) = false then
    Except.error (jstr "Session does not exist")
  else
    Except.ok
      [HostEvent.exec (sendKeysTextCmd (tmuxName sessionId) (js_escapeSQuotes text)),
       HostEvent.waitMs 1500,
       HostEvent.exec (sendKeysEnterCmd (tmuxName sessionId))]

end SM

/-- A `P0` manager facing a host that runs exactly the session claude-a. -/
def stRunA : P0.MgrState :=
  { P0.emptyState with running := fun n => decide (n = P0.tmuxName (jstr "a")) }

/-- A `P0` manager facing a host that runs exactly the session claude-b. -/
def stRunB : P0.MgrState :=
  { P0.emptyState with running := fun n => decide (n = P0.tmuxName (jstr "b")) }

/-- The shell command `sendToSession` executes for session a and text hi. -/
def cmdTextA : Str :=
  jstr "tmux send-keys -t \"claude-a\" -l " ++ [squote] ++ jstr "hi" ++ [squote]

/-- The Enter command `sendToSession` executes for session a. -/
def cmdEnterA : Str := jstr "tmux send-keys -t \"claude-a\" Enter"

/-- The shell command `sendToSession` executes for session b and text hello. -/
def cmdTextB : Str :=
  jstr "tmux send-keys -t \"claude-b\" -l " ++ [squote] ++ jstr "hello" ++ [squote]

/-- The Enter command `sendToSession` executes for session b. -/
def cmdEnterB : Str := jstr "tmux send-keys -t \"claude-b\" Enter"

/-- The registry state after linking session s1 to channel c1 and then
re-linking the same session to channel c2. -/
def relinkState : P0.MgrState :=
  P0.linkChannel (P0.linkChannel P0.emptyState (jstr "s1") (jstr "c1")) (jstr "s1") (jstr "c2")

/-- The re-linked registry of `relinkState` combined with a host that runs
the session claude-s1, ready to be killed. -/
def staleKillState : P0.MgrState :=
  { relinkState with running := fun n => decide (n = P0.tmuxName (jstr "s1")) }

/-- A host that already runs the session claude-x (fresh registry). -/
def busyHostState : P0.MgrState :=
  { P0.emptyState with running := fun n => decide (n = P0.tmuxName (jstr "x")) }

/-- A singly-linked session s2/channel c2 whose host session is running. -/
def wKillState : P0.MgrState :=
  { P0.linkChannel P0.emptyState (jstr "s2") (jstr "c2") with
    running := fun n => decide (n = P0.tmuxName (jstr "s2")) }

/-- An operation sequence whose links always target unlinked keys. -/
def wopsC3 : List RegOp :=
  [RegOp.link (jstr "s1") (jstr "c1"), RegOp.unlink (jstr "c1"),
   RegOp.link (jstr "s1") (jstr "c2")]

/-- Claim C1: `isPathAllowed` is the exact containment predicate — with an
empty allowlist every path is allowed, and otherwise a path is allowed
iff it equals an allowed root or extends one across a separator boundary;
in particular a bare string-prefix match without the separator, such as
the evil sibling of an allowed root, is rejected. -/
theorem isPathAllowed_characterization :
    (∀ (allowedPaths : List Str) (p : Str),
      isPathAllowed allowedPaths p = true ↔
        (allowedPaths = [] ∨ ∃ a ∈ allowedPaths,
          js_startsWith (resolvePath p) (a ++ jstr "/") = true ∨ resolvePath p = a))
    ∧ isPathAllowed [jstr "/home/projects"] (jstr "/home/projects-evil") = false := by
  constructor
  · intro allowedPaths p
    cases allowedPaths with
    | nil => simp [isPathAllowed]
    | cons a as =>
      simp [isPathAllowed, List.any_eq_true]
  · decide

/-- A list starts with itself, whatever follows. -/
theorem js_startsWith_append (p t : Str) : js_startsWith (p ++ t) p = true := by
  induction p with
  | nil => simp [js_startsWith]
  | cons a ps ih => simp [js_startsWith, ih]

/-- Extending a string on the right preserves its prefixes. -/
theorem js_startsWith_append_right (x y p : Str) (h : js_startsWith x p = true) :
    js_startsWith (x ++ y) p = true := by
  induction p generalizing x with
  | nil => simp [js_startsWith]
  | cons a ps ih =>
    cases x with
    | nil => simp [js_startsWith] at h
    | cons b bs =>
      simp only [List.cons_append, js_startsWith, Bool.and_eq_true] at h ⊢
      exact ⟨h.1, ih bs h.2⟩

/-- A suffix of the right part is a suffix of the whole. -/
theorem js_endsWith_append (s t p : Str) (h : js_endsWith t p = true) :
    js_endsWith (s ++ t) p = true := by
  unfold js_endsWith at h ⊢
  rw [List.reverse_append]
  exact js_startsWith_append_right _ _ _ h

/-- The empty string occurs in every string. -/
theorem hasSubstr_nil (t : Str) : hasSubstr [] t = true := by
  induction t with
  | nil => simp [hasSubstr]
  | cons c cs ih => simp [hasSubstr, js_startsWith]

/-- A string occurs inside itself followed by anything. -/
theorem hasSubstr_here (sub t : Str) : hasSubstr sub (sub ++ t) = true := by
  cases sub with
  | nil => exact hasSubstr_nil t
  | cons a as =>
    simp only [List.cons_append, hasSubstr, Bool.or_eq_true]
    refine Or.inl ?_
    simp only [js_startsWith, Bool.and_eq_true, decide_eq_true_eq]
    exact ⟨by trivial, js_startsWith_append as t⟩

/-- A string occurs inside itself. -/
theorem hasSubstr_self (sub : Str) : hasSubstr sub sub = true := by
  have h := hasSubstr_here sub []
  simpa using h

/-- A substring of the right part is a substring of the whole. -/
theorem hasSubstr_append_left (sub s t : Str) (h : hasSubstr sub t = true) :
    hasSubstr sub (s ++ t) = true := by
  induction s with
  | nil => simpa using h
  | cons c cs ih => simp [hasSubstr, ih]

/-- A substring of the left part is a substring of the whole. -/
theorem hasSubstr_append_right (sub s t : Str) (h : hasSubstr sub s = true) :
    hasSubstr sub (s ++ t) = true := by
  induction s with
  | nil =>
    simp [hasSubstr] at h
    subst h
    exact hasSubstr_nil t
  | cons c cs ih =>
    simp only [hasSubstr, Bool.or_eq_true] at h
    rcases h with h | h
    · simp only [List.cons_append, hasSubstr, Bool.or_eq_true]
      exact Or.inl (js_startsWith_append_right _ t _ h)
    · simp only [List.cons_append, hasSubstr, Bool.or_eq_true]
      exact Or.inr (ih h)

/-- The literal-text send command always carries the literal flag. -/
theorem hasSubstr_textCmd (name esc : Str) :
    hasSubstr (jstr " -l ") (sendKeysTextCmd name esc) = true := by
  unfold sendKeysTextCmd
  apply hasSubstr_append_right
  apply hasSubstr_append_right
  apply hasSubstr_append_right
  apply hasSubstr_append_left
  decide

/-- The session name is interpolated into the literal-text send command. -/
theorem hasSubstr_name_textCmd (name esc : Str) :
    hasSubstr name (sendKeysTextCmd name esc) = true := by
  unfold sendKeysTextCmd
  apply hasSubstr_append_right
  apply hasSubstr_append_right
  apply hasSubstr_append_right
  apply hasSubstr_append_right
  apply hasSubstr_append_left
  exact hasSubstr_self name

/-- The Enter send command always ends with the Enter key name. -/
theorem endsWith_enterCmd (name : Str) :
    js_endsWith (sendKeysEnterCmd name) (jstr " Enter") = true := by
  unfold sendKeysEnterCmd
  apply js_endsWith_append
  decide

/-- `splitChar` never returns an empty chunk list. -/
theorem splitChar_ne_nil (sep : Char) (s : Str) : splitChar sep s ≠ [] := by
  cases s with
  | nil => simp [splitChar]
  | cons c cs =>
    by_cases h : c = sep
    · simp [splitChar, h]
    · cases hs : splitChar sep cs with
      | nil => simp [splitChar, h, hs]
      | cons r rs => simp [splitChar, h, hs]

/-- The head chunk of a split, one character at a time. -/
theorem headD_splitChar_cons (sep c : Char) (cs : Str) :
    (splitChar sep (c :: cs)).headD [] =
      if c = sep then [] else c :: ((splitChar sep cs).headD []) := by
  by_cases h : c = sep
  · simp [splitChar, h]
  · cases hs : splitChar sep cs with
    | nil => exact absurd hs (splitChar_ne_nil sep cs)
    | cons r rs => simp [splitChar, h, hs]

/-- A separator-free prefix of a string is a prefix of its head chunk. -/
theorem js_startsWith_headChunk (sep : Char) (p s : Str) (hp : sep ∉ p)
    (h : js_startsWith s p = true) :
    js_startsWith ((splitChar sep s).headD []) p = true := by
  induction p generalizing s with
  | nil => simp [js_startsWith]
  | cons a ps ih =>
    cases s with
    | nil => simp [js_startsWith] at h
    | cons b ss =>
      simp only [js_startsWith, Bool.and_eq_true, decide_eq_true_eq] at h
      obtain ⟨hb, hrest⟩ := h
      subst hb
      rw [headD_splitChar_cons]
      have hbsep : ¬(b = sep) := fun e => hp (by rw [e]; exact List.mem_cons_self _ _)
      rw [if_neg hbsep]
      simp only [js_startsWith, Bool.and_eq_true, decide_eq_true_eq]
      exact ⟨by trivial, ih ss (fun m => hp (List.mem_cons_of_mem _ m)) hrest⟩

/-- Setting a fresh pair in two mutually inverse maps keeps them inverse. -/
theorem mset_pair_inverse (cm rm : Str → Option Str)
    (h : ∀ s c, cm s = some c ↔ rm c = some s) (s c : Str)
    (hs : cm s = none) (hc : rm c = none) :
    ∀ s0 c0, mset s c cm s0 = some c0 ↔ mset c s rm c0 = some s0 := by
  intro s0 c0
  unfold mset
  by_cases e1 : s0 = s <;> by_cases e2 : c0 = c
  · rw [if_pos e1, if_pos e2]
    exact ⟨fun _ => congrArg some e1.symm, fun _ => congrArg some e2.symm⟩
  · rw [if_pos e1, if_neg e2]
    constructor
    · intro h0
      exact absurd (Option.some.inj h0).symm e2
    · intro h0
      have h2 := (h s0 c0).mpr h0
      rw [e1, hs] at h2
      exact Option.noConfusion h2
  · rw [if_neg e1, if_pos e2]
    constructor
    · intro h0
      have h2 := (h s0 c0).mp h0
      rw [e2, hc] at h2
      exact Option.noConfusion h2
    · intro h0
      exact absurd (Option.some.inj h0).symm e1
  · rw [if_neg e1, if_neg e2]
    exact h s0 c0

/-- Deleting a linked pair from two mutually inverse maps keeps them
inverse. -/
theorem mdel_pair_some (cm rm : Str → Option Str)
    (h : ∀ s c, cm s = some c ↔ rm c = some s) (sid ch : Str)
    (hf : cm sid = some ch) :
    ∀ s0 c0, mdel sid cm s0 = some c0 ↔ mdel ch rm c0 = some s0 := by
  intro s0 c0
  unfold mdel
  have hrv : rm ch = some sid := (h sid ch).mp hf
  by_cases e1 : s0 = sid <;> by_cases e2 : c0 = ch
  · rw [if_pos e1, if_pos e2]
    simp
  · rw [if_pos e1, if_neg e2]
    constructor
    · intro h0
      exact Option.noConfusion h0
    · intro h0
      have h2 := (h s0 c0).mpr h0
      rw [e1, hf] at h2
      exact absurd (Option.some.inj h2).symm e2
  · rw [if_neg e1, if_pos e2]
    constructor
    · intro h0
      have h2 := (h s0 c0).mp h0
      rw [e2, hrv] at h2
      exact absurd (Option.some.inj h2).symm e1
    · intro h0
      exact Option.noConfusion h0
  · rw [if_neg e1, if_neg e2]
    exact h s0 c0

/-- Deleting an unlinked forward key from two mutually inverse maps keeps
them inverse (the reverse map is untouched). -/
theorem mdel_pair_none (cm rm : Str → Option Str)
    (h : ∀ s c, cm s = some c ↔ rm c = some s) (sid : Str)
    (hf : cm sid = none) :
    ∀ s0 c0, mdel sid cm s0 = some c0 ↔ rm c0 = some s0 := by
  intro s0 c0
  unfold mdel
  by_cases e1 : s0 = sid
  · rw [if_pos e1]
    constructor
    · intro h0
      exact Option.noConfusion h0
    · intro h0
      have h2 := (h s0 c0).mpr h0
      rw [e1, hf] at h2
      exact Option.noConfusion h2
  · rw [if_neg e1]
    exact h s0 c0

/-- `linkChannel` on a fresh session and a fresh channel preserves the
inverse-registry invariant. -/
theorem regInverse_link {st : P0.MgrState} (h : RegInverse st) {s c : Str}
    (hs : st.channelMap s = none) (hc : st.reverseMap c = none) :
    RegInverse (P0.linkChannel st s c) := by
  intro s0 c0
  exact mset_pair_inverse st.channelMap st.reverseMap h s c hs hc s0 c0

/-- `unlinkChannel` preserves the inverse-registry invariant (the
truthiness-guarded branches leave the state unchanged). -/
theorem regInverse_unlink {st : P0.MgrState} (h : RegInverse st) (c : Str) :
    RegInverse (P0.unlinkChannel st c) := by
  unfold P0.unlinkChannel
  split
  · rename_i sid hrc
    by_cases hsid : sid = []
    · rw [if_pos hsid]
      exact h
    · rw [if_neg hsid]
      intro s0 c0
      have hf : st.channelMap sid = some c := (h sid c).mpr hrc
      exact mdel_pair_some st.channelMap st.reverseMap h sid c hf s0 c0
  · exact h

/-- A successful `killSession` preserves the inverse-registry invariant,
provided no session is linked to the empty channel id (for such a link
the cleanup guard would skip the reverse delete and break the
invariant). -/
theorem regInverse_kill {st : P0.MgrState} (h : RegInverse st)
    (hne : NoEmptyChannel st) (sid : Str) (killOk : Bool)
    (st2 : P0.MgrState) (hk : P0.killSession st sid killOk = Except.ok st2) :
    RegInverse st2 := by
  unfold P0.killSession at hk
  split at hk
  · exact absurd hk (by simp)
  · split at hk
    · exact absurd hk (by simp)
    · have hst : st2 = _ := (Except.ok.inj hk).symm
      subst hst
      intro s0 c0
      cases hf : st.channelMap sid with
      | some ch =>
        have hch : ¬(ch = []) := by
          intro e
          rw [e] at hf
          exact hne sid hf
        simp only [hf, if_neg hch]
        exact mdel_pair_some st.channelMap st.reverseMap h sid ch hf s0 c0
      | none =>
        simp only [hf]
        exact mdel_pair_none st.channelMap st.reverseMap h sid hf s0 c0

/-- A successful `createSession` on a fresh session and channel preserves
the inverse-registry invariant. -/
theorem regInverse_create {st : P0.MgrState} (h : RegInverse st)
    (homedir : Str) (allowedPaths : List Str) (fsDirExists : Str → Bool)
    (spawnOk : Bool) (spawnErr : Str) (sid dir ch : Str)
    (hs : st.channelMap sid = none) (hc : st.reverseMap ch = none)
    (st2 : P0.MgrState) (info : P0.SessionInfo)
    (hcr : (P0.createSession homedir allowedPaths fsDirExists spawnOk spawnErr st sid dir ch).1
      = Except.ok (st2, info)) :
    RegInverse st2 := by
  simp only [P0.createSession] at hcr
  split at hcr
  · simp at hcr
  · split at hcr
    · simp at hcr
    · split at hcr
      · simp at hcr
      · split at hcr
        · simp at hcr
        · simp only [Except.ok.injEq, Prod.mk.injEq] at hcr
          obtain ⟨h1, -⟩ := hcr
          subst h1
          intro s0 c0
          exact mset_pair_inverse st.channelMap st.reverseMap h sid ch hs hc s0 c0

/-- Setting a nonempty value keeps a map free of empty-string values. -/
theorem noEmpty_mset (cm : Str → Option Str) (h : ∀ s, ¬(cm s = some []))
    (k v : Str) (hv : v ≠ []) : ∀ s, ¬(mset k v cm s = some []) := by
  intro s hs
  unfold mset at hs
  by_cases e : s = k
  · rw [if_pos e] at hs
    exact hv (Option.some.inj hs)
  · rw [if_neg e] at hs
    exact h s hs

/-- Deleting keeps a map free of empty-string values. -/
theorem noEmpty_mdel (cm : Str → Option Str) (h : ∀ s, ¬(cm s = some []))
    (k : Str) : ∀ s, ¬(mdel k cm s = some []) := by
  intro s hs
  unfold mdel at hs
  by_cases e : s = k
  · rw [if_pos e] at hs
    exact Option.noConfusion hs
  · rw [if_neg e] at hs
    exact h s hs

/-- `linkChannel` with a nonempty channel id preserves `NoEmptyChannel`. -/
theorem noEmptyChannel_link {st : P0.MgrState} (h : NoEmptyChannel st) {s c : Str}
    (hc : c ≠ []) : NoEmptyChannel (P0.linkChannel st s c) :=
  noEmpty_mset st.channelMap h s c hc

/-- `unlinkChannel` preserves `NoEmptyChannel`. -/
theorem noEmptyChannel_unlink {st : P0.MgrState} (h : NoEmptyChannel st) (c : Str) :
    NoEmptyChannel (P0.unlinkChannel st c) := by
  unfold P0.unlinkChannel
  split
  · rename_i sid hrc
    by_cases hsid : sid = []
    · rw [if_pos hsid]
      exact h
    · rw [if_neg hsid]
      exact noEmpty_mdel st.channelMap h sid
  · exact h

/-- A successful `killSession` preserves `NoEmptyChannel`. -/
theorem noEmptyChannel_kill {st : P0.MgrState} (h : NoEmptyChannel st)
    (sid : Str) (killOk : Bool) (st2 : P0.MgrState)
    (hk : P0.killSession st sid killOk = Except.ok st2) : NoEmptyChannel st2 := by
  unfold P0.killSession at hk
  split at hk
  · exact absurd hk (by simp)
  · split at hk
    · exact absurd hk (by simp)
    · have hst : st2 = _ := (Except.ok.inj hk).symm
      subst hst
      exact noEmpty_mdel st.channelMap h sid

/-- A successful `createSession` on a nonempty channel id preserves
`NoEmptyChannel`. -/
theorem noEmptyChannel_create {st : P0.MgrState} (h : NoEmptyChannel st)
    (homedir : Str) (allowedPaths : List Str) (fsDirExists : Str → Bool)
    (spawnOk : Bool) (spawnErr : Str) (sid dir ch : Str) (hch : ch ≠ [])
    (st2 : P0.MgrState) (info : P0.SessionInfo)
    (hcr : (P0.createSession homedir allowedPaths fsDirExists spawnOk spawnErr st sid dir ch).1
      = Except.ok (st2, info)) : NoEmptyChannel st2 := by
  simp only [P0.createSession] at hcr
  split at hcr
  · simp at hcr
  · split at hcr
    · simp at hcr
    · split at hcr
      · simp at hcr
      · split at hcr
        · simp at hcr
        · simp only [Except.ok.injEq, Prod.mk.injEq] at hcr
          obtain ⟨h1, -⟩ := hcr
          subst h1
          exact noEmpty_mset st.channelMap h sid ch hch

/-- The id computed from a namespace-prefixed tmux name: the stripped name,
with the JS falsy fallback to the full name when the stripped id is
empty. -/
theorem id_of_prefixed_name (name : Str) (h : js_startsWith name SM.sessionTag = true) :
    (match SM.getSessionIdFromTmuxName name with
      | some s => if s = [] then name else s
      | none => name)
    = if name.drop SM.sessionTag.length = [] then name
      else name.drop SM.sessionTag.length := by
  simp [SM.getSessionIdFromTmuxName, h]

/-- An entry parsed from a namespace-prefixed line keeps the prefixed name,
and its id is the name with the tag stripped unless the stripped result is
empty (bare-tag name), in which case the full name is kept. -/
theorem parseLine_fields (line : Str) (h : js_startsWith line SM.sessionTag = true) :
    js_startsWith (SM.parseLine line).tmuxName SM.sessionTag = true
    ∧ (SM.parseLine line).id =
        (if (SM.parseLine line).tmuxName.drop SM.sessionTag.length = []
         then (SM.parseLine line).tmuxName
         else (SM.parseLine line).tmuxName.drop SM.sessionTag.length) := by
  have hname := js_startsWith_headChunk pipeChar SM.sessionTag line (by decide) h
  exact ⟨hname, id_of_prefixed_name ((splitChar pipeChar line).headD []) hname⟩

/-- Claim C5: the differ returns none when the previous capture is empty
(first observation) or equals the current capture, and for previous
capture A-newline-B with current capture A-newline-B-newline-C it returns
exactly C. -/
theorem outputDiffer_none_cases_and_append :
    (∀ cur : Str, getNewOutputDiff [] cur = none)
    ∧ (∀ s : Str, getNewOutputDiff s s = none)
    ∧ getNewOutputDiff (jstr "A\nB") (jstr "A\nB\nC") = some (jstr "C") := by
  refine ⟨fun cur => ?_, fun s => ?_, ?_⟩
  · unfold getNewOutputDiff
    rw [if_pos (Or.inl rfl)]
  · unfold getNewOutputDiff
    rw [if_pos (Or.inr rfl)]
  · decide

/-- Claim C6 (amended): when the previous capture is nonempty, the current
capture is strictly longer, and the current capture ends with the final
500-character tail of the previous capture, the differ takes the fast
path and returns the prefix of the current capture of length
(current length minus previous length). -/
theorem outputDiffer_fast_path_nonempty_prev :
    ∀ last output : Str, last ≠ [] → output.length > last.length →
    js_endsWith output (js_sliceLast 500 last) = true →
    getNewOutputDiff last output = some (output.take (output.length - last.length)) := by
  intro last output h1 h2 h3
  have hne : ¬(output = last) := by
    intro e
    rw [e] at h2
    exact Nat.lt_irrefl _ h2
  unfold getNewOutputDiff
  rw [if_neg (by
    intro hc
    rcases hc with hc | hc
    · exact h1 hc
    · exact hne hc)]
  rw [if_pos ⟨h2, h3⟩]

/-- Witness for the amended C6 fast-path theorem at a concrete input. -/
theorem outputDiffer_fast_path_nonempty_prev_witness :
    getNewOutputDiff (jstr "AB") (jstr "xAB")
      = some ((jstr "xAB").take ((jstr "xAB").length - (jstr "AB").length)) :=
  outputDiffer_fast_path_nonempty_prev (jstr "AB") (jstr "xAB")
    (by decide) (by decide) (by decide)

/-- Counterexample to claim C6 as stated: with an empty previous capture the
current capture is strictly longer and ends with the (empty) 500-character
tail of the previous capture, yet the differ returns none rather than the
prefix of the current capture demanded by the claim. -/
theorem outputDiffer_fast_path_fails_on_empty_prev :
    (jstr "x").length > ([] : Str).length
    ∧ js_endsWith (jstr "x") (js_sliceLast 500 ([] : Str)) = true
    ∧ getNewOutputDiff [] (jstr "x") = none
    ∧ (none : Option Str)
        ≠ some ((jstr "x").take ((jstr "x").length - ([] : Str).length)) := by
  decide

/-- Claim C10: the differ never returns the empty string; every returned
value is non-empty. -/
theorem getNewOutput_never_empty :
    ∀ last output r : Str, getNewOutputDiff last output = some r → 0 < r.length := by
  intro last output r h
  by_cases h1 : last = [] ∨ output = last
  · simp [getNewOutputDiff, h1] at h
  · by_cases h2 : output.length > last.length
        ∧ js_endsWith output (js_sliceLast 500 last) = true
    · simp [getNewOutputDiff, h1, h2] at h
      rw [← h, List.length_take]
      exact lt_min_iff.mpr
        ⟨Nat.sub_pos_of_lt h2.1, lt_of_le_of_lt (Nat.zero_le _) h2.1⟩
    · by_cases h3 : js_trim (joinNL ((splitChar nlChar (js_trim output)).drop
          (diffStartIdx (splitChar nlChar (js_trim last))
            (splitChar nlChar (js_trim output))))) = []
      · simp [getNewOutputDiff, generalPathDiff, h1, h2, h3] at h
      · simp [getNewOutputDiff, generalPathDiff, h1, h2, h3] at h
        rw [← h]
        exact List.length_pos.mpr h3

/-- Witness for C10 at a concrete input on which the differ returns a value. -/
theorem getNewOutput_never_empty_witness :
    getNewOutputDiff (jstr "Q") (jstr "QR") = some (jstr "QR")
    ∧ 0 < (jstr "QR").length :=
  ⟨by decide, getNewOutput_never_empty (jstr "Q") (jstr "QR") (jstr "QR") (by decide)⟩

/-- Claim C2 (amended): the tmux new-session spawn (`spawnSync`) passes all
values, in particular the untrusted working directory, as elements of a
discrete argument vector — a directory containing shell metacharacters
appears verbatim as a single element; but `sendToSession` delivers the
session name and the quote-escaped user text by interpolating them into
shell command strings executed via `execSync`, not as an argument
vector. -/
theorem createSession_argv_sendToSession_interpolated :
    (∀ (homedir : Str) (allowedPaths : List Str) (fsDirExists : Str → Bool) (spawnErr : Str)
       (st : P0.MgrState) (sessionId directory channelId : Str),
      isPathAllowed allowedPaths (resolveDir homedir directory) = true →
      fsDirExists (resolveDir homedir directory) = true →
      P0.sessionExists st sessionId = false →
      (P0.createSession homedir allowedPaths fsDirExists true spawnErr st
          sessionId directory channelId).2
        = [HostEvent.exec (hasSessionCmd (P0.tmuxName sessionId)),
           HostEvent.spawn (jstr "tmux")
             (newSessionArgs (P0.tmuxName sessionId) (resolveDir homedir directory))]
      ∧ resolveDir homedir directory
          ∈ newSessionArgs (P0.tmuxName sessionId) (resolveDir homedir directory))
    ∧ (∀ (st : P0.MgrState) (sessionId text : Str),
        P0.sessionExists st sessionId = true →
        ∃ c1 c2, P0.sendToSession st sessionId text
            = Except.ok [HostEvent.exec c1, HostEvent.exec c2]
          ∧ isArgVector (HostEvent.exec c1) = false
          ∧ isArgVector (HostEvent.exec c2) = false
          ∧ hasSubstr (P0.tmuxName sessionId) c1 = true) := by
  constructor
  · intro homedir allowedPaths fsDirExists spawnErr st sessionId directory channelId h1 h2 h3
    constructor
    · simp [P0.createSession, h1, h2, h3]
    · simp [newSessionArgs]
  · intro st sessionId text h
    refine ⟨sendKeysTextCmd (P0.tmuxName sessionId) (js_escapeSQuotes text),
            sendKeysEnterCmd (P0.tmuxName sessionId), ?_, rfl, rfl, ?_⟩
    · simp [P0.sendToSession, h]
    · exact hasSubstr_name_textCmd _ _

/-- Witness for the amended C2 theorem: the spawn for a directory containing
a subshell substitution pattern carries it verbatim as one argument-vector
element, and a concrete send delivers two shell strings. -/
theorem createSession_argv_sendToSession_interpolated_witness :
    ((P0.createSession (jstr "/h") [] (fun _ => true) true [] P0.emptyState
        (jstr "j") (jstr "/tmp/$(whoami)") (jstr "ch")).2
      = [HostEvent.exec (hasSessionCmd (P0.tmuxName (jstr "j"))),
         HostEvent.spawn (jstr "tmux")
           (newSessionArgs (P0.tmuxName (jstr "j"))
             (resolveDir (jstr "/h") (jstr "/tmp/$(whoami)")))]
      ∧ resolveDir (jstr "/h") (jstr "/tmp/$(whoami)")
          ∈ newSessionArgs (P0.tmuxName (jstr "j"))
              (resolveDir (jstr "/h") (jstr "/tmp/$(whoami)")))
    ∧ (∃ c1 c2, P0.sendToSession stRunA (jstr "a") (jstr "ping")
        = Except.ok [HostEvent.exec c1, HostEvent.exec c2]
      ∧ isArgVector (HostEvent.exec c1) = false
      ∧ isArgVector (HostEvent.exec c2) = false
      ∧ hasSubstr (P0.tmuxName (jstr "a")) c1 = true) :=
  ⟨createSession_argv_sendToSession_interpolated.1 (jstr "/h") [] (fun _ => true) []
      P0.emptyState (jstr "j") (jstr "/tmp/$(whoami)") (jstr "ch")
      (by decide) (by decide) (by decide),
   createSession_argv_sendToSession_interpolated.2 stRunA (jstr "a") (jstr "ping") (by decide)⟩

/-- Counterexample to claim C2 as stated: `sendToSession` hands the host an
`execSync` shell command string with the session name (and the text)
interpolated into it — not a discrete argument vector. -/
theorem sendToSession_shell_string_counterexample :
    P0.sendToSession stRunA (jstr "a") (jstr "hi")
      = Except.ok [HostEvent.exec cmdTextA, HostEvent.exec cmdEnterA]
    ∧ isArgVector (HostEvent.exec cmdTextA) = false
    ∧ hasSubstr (P0.tmuxName (jstr "a")) cmdTextA = true := by
  decide

/-- Claim C3 (amended): `linkChannel` (and the identical map updates in
`createSession`) overwrite the forward entry for the session and the
reverse entry for the channel but do not clear the stale entries of the
previously linked partners, and the truthiness-guarded cleanup of
`killSession` skips the reverse delete of an empty-string channel id;
consequently the forward and reverse maps are exact 1:1 inverses after
any operation sequence in which every link targets a currently unlinked
session and channel and binds a nonempty channel id, starting from an
inverse registry with no session linked to the empty channel id. -/
theorem registry_inverse_under_fresh_links :
    ∀ (ops : List RegOp) (st : P0.MgrState),
      RegInverse st → NoEmptyChannel st → freshLinks st ops = true →
      RegInverse (runRegOps st ops) := by
  intro ops
  induction ops with
  | nil =>
    intro st h _ _
    simpa [runRegOps] using h
  | cons op ops ih =>
    intro st h hne hf
    simp only [freshLinks, Bool.and_eq_true] at hf
    obtain ⟨hop, hrest⟩ := hf
    have hnext : RegInverse (applyRegOp st op) ∧ NoEmptyChannel (applyRegOp st op) := by
      cases op with
      | link s c =>
        simp only [Bool.and_eq_true, Option.isNone_iff_eq_none, decide_eq_true_eq] at hop
        exact ⟨regInverse_link h hop.1.1 hop.1.2, noEmptyChannel_link hne hop.2⟩
      | unlink c => exact ⟨regInverse_unlink h c, noEmptyChannel_unlink hne c⟩
      | kill s killOk =>
        simp only [applyRegOp]
        cases hk : P0.killSession st s killOk with
        | ok st2 =>
          exact ⟨regInverse_kill h hne s killOk st2 hk,
                 noEmptyChannel_kill hne s killOk st2 hk⟩
        | error e => exact ⟨h, hne⟩
      | create hd al fs so se sid dir ch =>
        simp only [Bool.and_eq_true, Option.isNone_iff_eq_none, decide_eq_true_eq] at hop
        simp only [applyRegOp]
        cases hk : (P0.createSession hd al fs so se st sid dir ch).1 with
        | ok p =>
          obtain ⟨st2, info⟩ := p
          exact ⟨regInverse_create h hd al fs so se sid dir ch hop.1.1 hop.1.2 st2 info hk,
                 noEmptyChannel_create hne hd al fs so se sid dir ch hop.2 st2 info hk⟩
        | error e => exact ⟨h, hne⟩
    simpa only [runRegOps, List.foldl_cons] using ih (applyRegOp st op) hnext.1 hnext.2 hrest

/-- Witness for the amended C3 theorem on a concrete fresh-link sequence. -/
theorem registry_inverse_under_fresh_links_witness :
    freshLinks P0.emptyState wopsC3 = true
    ∧ RegInverse (runRegOps P0.emptyState wopsC3) :=
  ⟨by decide,
   registry_inverse_under_fresh_links wopsC3 P0.emptyState
     (fun s c => by simp [P0.emptyState]) (fun s => by simp [P0.emptyState]) (by decide)⟩

/-- Counterexample to claim C3 as stated: after linking session s1 to
channel c1 and then re-linking s1 to c2, channel c1 still maps to s1 in
the reverse map while the forward map sends s1 to c2 — the maps are not
inverses and two distinct channels resolve to the same session. -/
theorem relink_breaks_registry_inverse :
    P0.getSessionByChannel relinkState (jstr "c1") = some (jstr "s1")
    ∧ P0.getSessionByChannel relinkState (jstr "c2") = some (jstr "s1")
    ∧ P0.getChannelBySession relinkState (jstr "s1") = some (jstr "c2")
    ∧ jstr "c1" ≠ jstr "c2" := by
  decide

/-- Claim C4 (amended): `createSession`'s validation checks run in a fixed
order — allowlist, then directory existence, then duplicate session — and
each failure reports the first failing check: when the allowed directory
is absent the call fails with the does-not-exist error, and when the
directory exists but the derived session name is already running it fails
with the already-exists error; in both failure cases the `spawnSync` host
call is never invoked. -/
theorem createSession_error_precedence :
    ∀ (homedir : Str) (allowedPaths : List Str) (fsDirExists : Str → Bool)
      (spawnOk : Bool) (spawnErr : Str) (st : P0.MgrState)
      (sessionId directory channelId : Str),
      (isPathAllowed allowedPaths (resolveDir homedir directory) = true →
       fsDirExists (resolveDir homedir directory) = false →
       (P0.createSession homedir allowedPaths fsDirExists spawnOk spawnErr st
           sessionId directory channelId).1
         = Except.error (jstr "Directory does not exist: " ++ resolveDir homedir directory)
       ∧ ((P0.createSession homedir allowedPaths fsDirExists spawnOk spawnErr st
             sessionId directory channelId).2).all (fun e => !isArgVector e) = true)
      ∧ (isPathAllowed allowedPaths (resolveDir homedir directory) = true →
         fsDirExists (resolveDir homedir directory) = true →
         P0.sessionExists st sessionId = true →
         (P0.createSession homedir allowedPaths fsDirExists spawnOk spawnErr st
             sessionId directory channelId).1
           = Except.error (jstr "Session \"" ++ sessionId ++ jstr "\" already exists")
         ∧ ((P0.createSession homedir allowedPaths fsDirExists spawnOk spawnErr st
               sessionId directory channelId).2).all (fun e => !isArgVector e) = true) := by
  intro homedir allowedPaths fsDirExists spawnOk spawnErr st sessionId directory channelId
  constructor
  · intro h1 h2
    constructor
    · simp [P0.createSession, h1, h2]
    · simp [P0.createSession, h1, h2]
  · intro h1 h2 h3
    constructor
    · simp [P0.createSession, h1, h2, h3]
    · simp [P0.createSession, h1, h2, h3, isArgVector]

/-- Witness for the amended C4 theorem at two concrete inputs: an absent
directory, and a duplicate session name with an existing directory. -/
theorem createSession_error_precedence_witness :
    ((P0.createSession (jstr "/h") [] (fun _ => false) true [] P0.emptyState
        (jstr "w1") (jstr "/nope") (jstr "c")).1
      = Except.error (jstr "Directory does not exist: " ++ resolveDir (jstr "/h") (jstr "/nope"))
     ∧ ((P0.createSession (jstr "/h") [] (fun _ => false) true [] P0.emptyState
          (jstr "w1") (jstr "/nope") (jstr "c")).2).all (fun e => !isArgVector e) = true)
    ∧ ((P0.createSession (jstr "/h") [] (fun _ => true) true [] busyHostState
        (jstr "x") (jstr "/tmp") (jstr "c")).1
      = Except.error (jstr "Session \"" ++ jstr "x" ++ jstr "\" already exists")
     ∧ ((P0.createSession (jstr "/h") [] (fun _ => true) true [] busyHostState
          (jstr "x") (jstr "/tmp") (jstr "c")).2).all (fun e => !isArgVector e) = true) :=
  ⟨(createSession_error_precedence (jstr "/h") [] (fun _ => false) true [] P0.emptyState
      (jstr "w1") (jstr "/nope") (jstr "c")).1 (by decide) (by decide),
   (createSession_error_precedence (jstr "/h") [] (fun _ => true) true [] busyHostState
      (jstr "x") (jstr "/tmp") (jstr "c")).2 (by decide) (by decide) (by decide)⟩

/-- Counterexample to claim C4 as stated: with an empty allowlist, an absent
directory and the derived session name already running, `createSession`
fails with the does-not-exist error — not with the already-exists error
the claim requires whenever a session with the derived name is
currently running. -/
theorem createSession_duplicate_masked_by_missing_dir :
    P0.sessionExists busyHostState (jstr "x") = true
    ∧ (match (P0.createSession (jstr "/h") [] (fun _ => false) true [] busyHostState
          (jstr "x") (jstr "/tmp") (jstr "c")).1 with
       | Except.error msg => some msg
       | Except.ok _ => none) = some (jstr "Directory does not exist: /tmp")
    ∧ hasSubstr (jstr "already exists") (jstr "Directory does not exist: /tmp") = false := by
  decide

/-- Claim C7 (amended): a successful `killSession` clears the forward
channel entry of the killed session, evicts the last-output cache entry,
and leaves the session invisible to `getChannelBySession` and
`getSession`; it clears the reverse entry of the currently linked channel
only when that channel id is nonempty — for an empty-string channel id
the JS truthiness guard skips the delete and the reverse map is left
untouched — and reverse entries for the killed session left stale by
earlier re-linking are only guaranteed absent when the registry was a
1:1 inverse pair with no empty-channel link beforehand. -/
theorem killSession_evicts_current_link :
    ∀ (st : P0.MgrState) (sessionId : Str),
      P0.sessionExists st sessionId = true →
      ∃ st2, P0.killSession st sessionId true = Except.ok st2
        ∧ st2.channelMap sessionId = none
        ∧ (∀ c, st.channelMap sessionId = some c → c ≠ [] → st2.reverseMap c = none)
        ∧ (st.channelMap sessionId = some [] → ∀ c, st2.reverseMap c = st.reverseMap c)
        ∧ st2.lastOutput sessionId = none
        ∧ P0.getChannelBySession st2 sessionId = none
        ∧ (∀ hostOut, P0.getSession st2 hostOut sessionId = none)
        ∧ (RegInverse st → NoEmptyChannel st →
            ∀ c, ¬(st2.reverseMap c = some sessionId)) := by
  intro st sessionId h
  refine ⟨{ channelMap := mdel sessionId st.channelMap,
            reverseMap := (match st.channelMap sessionId with
              | some channelId =>
                if channelId = [] then st.reverseMap else mdel channelId st.reverseMap
              | none => st.reverseMap),
            lastOutput := mdel sessionId st.lastOutput,
            running := fun n => if n = P0.tmuxName sessionId then false else st.running n },
          ?_, ?_, ?_, ?_, ?_, ?_, ?_, ?_⟩
  · simp [P0.killSession, h]
  · simp [mdel]
  · intro c hc hcne
    simp [hc, hcne, mdel]
  · intro hc c
    simp [hc]
  · simp [mdel]
  · simp [P0.getChannelBySession, mdel]
  · intro hostOut
    simp [P0.getSession, P0.sessionExists]
  · intro hinv hne c hc
    cases hf : st.channelMap sessionId with
    | some ch =>
      have hch : ¬(ch = []) := by
        intro e
        rw [e] at hf
        exact hne sessionId hf
      simp only [hf, if_neg hch] at hc
      by_cases e : c = ch
      · rw [e] at hc
        simp [mdel] at hc
      · simp only [mdel, if_neg e] at hc
        have h2 := (hinv sessionId c).mpr hc
        rw [hf] at h2
        exact e (Option.some.inj h2).symm
    | none =>
      simp only [hf] at hc
      have h2 := (hinv sessionId c).mpr hc
      rw [hf] at h2
      exact Option.noConfusion h2

/-- Witness for the amended C7 theorem on a singly-linked running session. -/
theorem killSession_evicts_current_link_witness :
    P0.sessionExists wKillState (jstr "s2") = true
    ∧ ∃ st2, P0.killSession wKillState (jstr "s2") true = Except.ok st2
        ∧ st2.channelMap (jstr "s2") = none
        ∧ (∀ c, wKillState.channelMap (jstr "s2") = some c → c ≠ [] →
            st2.reverseMap c = none)
        ∧ (wKillState.channelMap (jstr "s2") = some [] →
            ∀ c, st2.reverseMap c = wKillState.reverseMap c)
        ∧ st2.lastOutput (jstr "s2") = none
        ∧ P0.getChannelBySession st2 (jstr "s2") = none
        ∧ (∀ hostOut, P0.getSession st2 hostOut (jstr "s2") = none)
        ∧ (RegInverse wKillState → NoEmptyChannel wKillState →
            ∀ c, ¬(st2.reverseMap c = some (jstr "s2"))) :=
  ⟨by decide, killSession_evicts_current_link wKillState (jstr "s2") (by decide)⟩

/-- Counterexample to claim C7 as stated: session s1 was linked to c1 and
then re-linked to c2; after a successful `killSession` of s1 the stale
reverse mapping of channel c1 still resolves to s1, so not every channel
mapping that referenced the killed session was removed. -/
theorem killSession_leaves_stale_reverse_link :
    P0.sessionExists staleKillState (jstr "s1") = true
    ∧ (match P0.killSession staleKillState (jstr "s1") true with
       | Except.ok st2 => P0.getSessionByChannel st2 (jstr "c1")
       | Except.error _ => none) = some (jstr "s1") := by
  decide

/-- Claim C8: `sendToSession` of `src/src/sessionManager.ts` delivers input
as a strictly ordered two-step sequence — the literal text is injected
first, then an awaited 1500 ms delay (within the 1-2 second order), and
only after it the Enter keystroke. -/
theorem sendToSession_text_wait_enter :
    ∀ (running : Str → Bool) (sessionId text : Str),
      running (SM.tmuxName sessionId) = true →
      ∃ steps, SM.sendToSession running sessionId text = Except.ok steps
        ∧ twoStepTextThenEnter 1000 2000 steps = true := by
  intro running sessionId text h
  refine ⟨[HostEvent.exec (sendKeysTextCmd (SM.tmuxName sessionId) (js_escapeSQuotes text)),
           HostEvent.waitMs 1500,
           HostEvent.exec (sendKeysEnterCmd (SM.tmuxName sessionId))], ?_, ?_⟩
  · simp [SM.sendToSession, h]
  · simp only [twoStepTextThenEnter, Bool.and_eq_true, decide_eq_true_eq]
    exact ⟨⟨⟨hasSubstr_textCmd _ _, endsWith_enterCmd _⟩, by omega⟩, by omega⟩

/-- Witness for C8 at a concrete running session and text. -/
theorem sendToSession_text_wait_enter_witness :
    ∃ steps, SM.sendToSession (fun n => decide (n = SM.tmuxName (jstr "g_c")))
        (jstr "g_c") (jstr "hello") = Except.ok steps
      ∧ twoStepTextThenEnter 1000 2000 steps = true :=
  sendToSession_text_wait_enter (fun n => decide (n = SM.tmuxName (jstr "g_c")))
    (jstr "g_c") (jstr "hello") (by decide)

/-- The variant `sendToSession` of `src/unnamed/part_000` delivers the text
and the Enter keystroke back to back, with no delay step anywhere in the
trace. -/
theorem legacy_sendToSession_sends_enter_without_delay :
    P0.sendToSession stRunB (jstr "b") (jstr "hello")
      = Except.ok [HostEvent.exec cmdTextB, HostEvent.exec cmdEnterB]
    ∧ hasWaitStep [HostEvent.exec cmdTextB, HostEvent.exec cmdEnterB] = false
    ∧ hasSubstr (jstr " -l ") cmdTextB = true
    ∧ js_endsWith cmdEnterB (jstr " Enter") = true
    ∧ twoStepTextThenEnter 1000 2000 [HostEvent.exec cmdTextB, HostEvent.exec cmdEnterB]
        = false := by
  decide

/-- Claim C9 (amended): `listSessions` never raises — a host listing failure
yields the empty sequence — and every returned entry's tmux name begins
with the namespace tag (sessions without the tag are excluded); the entry
id is the name with the tag stripped, except that a name consisting of
the bare tag (whose stripped id is empty) falls back to the full
unstripped name. -/
theorem listSessions_filter_and_strip :
    SM.listSessions none = []
    ∧ ∀ (out : Str) (e : SM.SessionInfo), e ∈ SM.listSessions (some out) →
        js_startsWith e.tmuxName SM.sessionTag = true
        ∧ e.id = (if e.tmuxName.drop SM.sessionTag.length = []
            then e.tmuxName else e.tmuxName.drop SM.sessionTag.length) := by
  constructor
  · rfl
  · intro out e he
    simp only [SM.listSessions, List.mem_map] at he
    obtain ⟨line, hline, he⟩ := he
    rw [List.mem_filter] at hline
    subst he
    exact parseLine_fields line hline.2

/-- Witness for the amended C9 theorem on a concrete host listing line. -/
theorem listSessions_filter_and_strip_witness :
    js_startsWith (SM.parseLine (jstr "disco_g1_c1|99|/w")).tmuxName SM.sessionTag = true
    ∧ (SM.parseLine (jstr "disco_g1_c1|99|/w")).id
      = (if (SM.parseLine (jstr "disco_g1_c1|99|/w")).tmuxName.drop SM.sessionTag.length = []
         then (SM.parseLine (jstr "disco_g1_c1|99|/w")).tmuxName
         else (SM.parseLine (jstr "disco_g1_c1|99|/w")).tmuxName.drop SM.sessionTag.length) :=
  listSessions_filter_and_strip.2 (jstr "disco_g1_c1|99|/w")
    (SM.parseLine (jstr "disco_g1_c1|99|/w")) (by decide)

/-- Counterexample to claim C9 as stated: a host session named exactly by
the bare namespace tag is returned with its id equal to the full name,
not to the (empty) name-with-the-tag-stripped the claim requires. -/
theorem listSessions_id_fallback_on_bare_tag :
    (SM.listSessions (some (jstr "disco_|1|/p"))).map SM.SessionInfo.tmuxName
      = [jstr "disco_"]
    ∧ (SM.listSessions (some (jstr "disco_|1|/p"))).map SM.SessionInfo.id
      = [jstr "disco_"]
    ∧ (jstr "disco_").drop SM.sessionTag.length = ([] : Str)
    ∧ jstr "disco_" ≠ ([] : Str) := by
  decide
